import Mathlib

/-!
Shallow embedding of the DanmuQueue concurrency core (src/app/queue.py and
src/app/context.py) and proofs about its queue state machine, admission
pipeline, auto-pause scheduler and snapshot masking.
-/

namespace DanmuQueue

/-- QueueItem from queue.py: user identity, display name, mark flag, join time. -/
structure QueueItem where
  user_key : String
  uname : String
  marked : Bool := false
  joined_at : String := ""
deriving DecidableEq

/-- QueueState from queue.py: slot 0 is current, slots 1..n are waiting. -/
structure QueueState where
  current : Option QueueItem := none
  waiting : List QueueItem := []
deriving DecidableEq

def emptyQueue : QueueState := {}

/-- QueueState.total_len: 1 for an occupied current slot plus the waiting length. -/
def QueueState.total_len (s : QueueState) : Nat :=
  (if s.current.isSome then 1 else 0) + s.waiting.length

/-- QueueState.has_user: user_key present in current or anywhere in waiting. -/
def QueueState.has_user (s : QueueState) (user_key : String) : Bool :=
  (match s.current with
   | some it => it.user_key == user_key
   | none => false) ||
  s.waiting.any (fun it => it.user_key == user_key)

/-- True when the current slot holds the given user_key. -/
def currentKeyIs (s : QueueState) (k : String) : Bool :=
  match s.current with
  | some c => c.user_key == k
  | none => false

/-- QueueCore.enqueue from queue.py; the wall clock value of now_iso() is passed in. -/
def QueueState.enqueue (s : QueueState) (user_key uname : String) (max_queue : Nat)
    (now : String) : (Bool × String) × QueueState :=
  if s.has_user user_key then ((false, "duplicate"), s)
  else if s.total_len ≥ max_queue then ((false, "full"), s)
  else
    let item : QueueItem := { user_key := user_key, uname := uname, joined_at := now }
    match s.current with
    | none => ((true, "ok"), { s with current := some item })
    | some _ => ((true, "ok"), { s with waiting := s.waiting ++ [item] })

/-- First item of the list whose user_key matches, paired with the list from which
that single occurrence has been popped; models the index scan plus pop used by
QueueCore.remove and QueueCore.pin_top. -/
def popFirst (l : List QueueItem) (k : String) : Option (QueueItem × List QueueItem) :=
  match l with
  | [] => none
  | it :: rest =>
    if it.user_key == k then some (it, rest)
    else (popFirst rest k).map (fun p => (p.1, it :: p.2))

/-- QueueCore.remove from queue.py: clearing current promotes the waiting head. -/
def QueueState.remove (s : QueueState) (user_key : String) : Bool × QueueState :=
  if currentKeyIs s user_key then
    match s.waiting with
    | [] => (true, { s with current := none })
    | h :: t => (true, { s with current := some h, waiting := t })
  else
    match popFirst s.waiting user_key with
    | some p => (true, { s with waiting := p.2 })
    | none => (false, s)

/-- QueueCore.pin_top from queue.py: move the matching waiting item to waiting[0]. -/
def QueueState.pin_top (s : QueueState) (user_key : String) : Bool × QueueState :=
  if currentKeyIs s user_key then (false, s)
  else
    match popFirst s.waiting user_key with
    | none => (false, s)
    | some p => (true, { s with waiting := p.1 :: p.2 })

/-- Mark the first matching waiting item, as the loop in QueueCore.set_marked does. -/
def markFirst (l : List QueueItem) (k : String) (m : Bool) : Option (List QueueItem) :=
  match l with
  | [] => none
  | it :: rest =>
    if it.user_key == k then some ({ it with marked := m } :: rest)
    else (markFirst rest k m).map (fun r => it :: r)

def setMarkedWaiting (s : QueueState) (user_key : String) (m : Bool) : Bool × QueueState :=
  match markFirst s.waiting user_key m with
  | some w => (true, { s with waiting := w })
  | none => (false, s)

/-- QueueCore.set_marked from queue.py. -/
def QueueState.set_marked (s : QueueState) (user_key : String) (m : Bool) :
    Bool × QueueState :=
  match s.current with
  | some c =>
    if c.user_key == user_key then
      (true, { s with current := some { c with marked := m } })
    else setMarkedWaiting s user_key m
  | none => setMarkedWaiting s user_key m

/-- One queue-core operation, for stating invariants over operation sequences. -/
inductive QOp where
  | enq (user_key uname : String) (max_queue : Nat) (now : String)
  | rem (user_key : String)
  | pin (user_key : String)
  | mark (user_key : String) (m : Bool)

def applyOp (s : QueueState) : QOp → QueueState
  | QOp.enq k u n t => (s.enqueue k u n t).2
  | QOp.rem k => (s.remove k).2
  | QOp.pin k => (s.pin_top k).2
  | QOp.mark k m => (s.set_marked k m).2

def runOps (s : QueueState) : List QOp → QueueState
  | [] => s
  | op :: rest => runOps (applyOp s op) rest

/-- Run a sequence of enqueue calls (user_key, uname, now) at a fixed capacity. -/
def runEnqueues (s : QueueState) (N : Nat) : List (String × String × String) → QueueState
  | [] => s
  | a :: rest => runEnqueues (s.enqueue a.1 a.2.1 N a.2.2).2 N rest

theorem enqueue_total_le (s : QueueState) (k u t : String) (N : Nat)
    (h : s.total_len ≤ N) : ((s.enqueue k u N t).2).total_len ≤ N := by
  unfold QueueState.enqueue
  split
  · exact h
  · split
    · exact h
    · rename_i hfull
      match hc : s.current with
      | none =>
        simp [QueueState.total_len, hc] at *
        omega
      | some c =>
        simp [QueueState.total_len, hc] at *
        omega

theorem runEnqueues_total_le (N : Nat) (ops : List (String × String × String))
    (s : QueueState) (h : s.total_len ≤ N) :
    (runEnqueues s N ops).total_len ≤ N := by
  induction ops generalizing s with
  | nil => exact h
  | cons a rest ih =>
    exact ih _ (enqueue_total_le s a.1 a.2.1 a.2.2 N h)

/-- C1: starting from the empty queue, any sequence of enqueue calls at fixed
capacity N keeps the total number of items (current plus waiting) at most N; and
enqueueing a user_key already present in any state returns (false, "duplicate")
and leaves the state unchanged. -/
theorem claim_C1_capacity_and_duplicate (N : Nat) (ops : List (String × String × String))
    (s : QueueState) (k u t : String) (hdup : s.has_user k = true) :
    (runEnqueues emptyQueue N ops).total_len ≤ N ∧
      s.enqueue k u N t = ((false, "duplicate"), s) := by
  constructor
  · exact runEnqueues_total_le N ops emptyQueue (by simp [emptyQueue, QueueState.total_len])
  · unfold QueueState.enqueue
    simp [hdup]

theorem claim_C1_witness :
    (runEnqueues emptyQueue 1 [("a", "A", "t")]).total_len ≤ 1 ∧
      (QueueState.mk (some ⟨"a", "A", false, ""⟩) []).enqueue "a" "B" 1 "t2" =
        ((false, "duplicate"), QueueState.mk (some ⟨"a", "A", false, ""⟩) []) :=
  claim_C1_capacity_and_duplicate 1 [("a", "A", "t")] _ "a" "B" "t2" rfl

theorem popFirst_decomp (l : List QueueItem) (k : String) (it : QueueItem)
    (rest : List QueueItem) (h : popFirst l k = some (it, rest)) :
    ∃ pre post, l = pre ++ it :: post ∧ it.user_key = k ∧
      (∀ x ∈ pre, x.user_key ≠ k) ∧ rest = pre ++ post := by
  induction l generalizing rest with
  | nil => simp [popFirst] at h
  | cons hd tl ih =>
    rw [popFirst] at h
    by_cases hk : (hd.user_key == k) = true
    · rw [if_pos hk] at h
      have h2 := Option.some.inj h
      have hit : hd = it := congrArg Prod.fst h2
      have hrest : tl = rest := congrArg Prod.snd h2
      refine ⟨[], tl, by simp [hit], by rw [← hit]; exact eq_of_beq hk, by simp, by simp [hrest]⟩
    · rw [if_neg hk] at h
      match hp : popFirst tl k with
      | none => rw [hp] at h; simp at h
      | some p =>
        rw [hp] at h
        simp only [Option.map_some'] at h
        have h2 := Option.some.inj h
        have hit : p.1 = it := congrArg Prod.fst h2
        have hrest : hd :: p.2 = rest := congrArg Prod.snd h2
        obtain ⟨pre, post, hl, hkey, hpre, hr⟩ := ih p.2 (by rw [hp, ← hit])
        refine ⟨hd :: pre, post, by simp [hl], hkey, ?_, by rw [← hrest, hr]; rfl⟩
        intro x hx
        rcases List.mem_cons.mp hx with hxe | hxm
        · subst hxe; intro he; exact hk (by simp [he])
        · exact hpre x hxm

theorem popFirst_eq_none (l : List QueueItem) (k : String) :
    popFirst l k = none ↔ ∀ x ∈ l, x.user_key ≠ k := by
  induction l with
  | nil => simp [popFirst]
  | cons hd tl ih =>
    rw [popFirst]
    by_cases hk : (hd.user_key == k) = true
    · rw [if_pos hk]
      constructor
      · intro h; simp at h
      · intro h; exact absurd (eq_of_beq hk) (h hd (List.mem_cons_self hd tl))
    · rw [if_neg hk]
      rw [Option.map_eq_none', ih]
      constructor
      · intro h x hx
        rcases List.mem_cons.mp hx with hxe | hxm
        · subst hxe; intro he; exact hk (by simp [he])
        · exact h x hxm
      · intro h x hx
        exact h x (List.mem_cons_of_mem hd hx)

theorem popFirst_key (l : List QueueItem) (k : String) (it : QueueItem)
    (rest : List QueueItem) (h : popFirst l k = some (it, rest)) : it.user_key = k := by
  obtain ⟨_, _, _, hkey, _, _⟩ := popFirst_decomp l k it rest h
  exact hkey

theorem popFirst_cons_self (it : QueueItem) (rest : List QueueItem) (k : String)
    (h : it.user_key = k) : popFirst (it :: rest) k = some (it, rest) := by
  simp [popFirst, h]

theorem has_user_false_parts (s : QueueState) (k : String) (h : s.has_user k = false) :
    currentKeyIs s k = false ∧ ∀ x ∈ s.waiting, x.user_key ≠ k := by
  unfold QueueState.has_user at h
  simp only [Bool.or_eq_false_iff] at h
  obtain ⟨h1, h2⟩ := h
  constructor
  · unfold currentKeyIs
    match hc : s.current with
    | some c => rw [hc] at h1; exact h1
    | none => rfl
  · intro x hx he
    simp only [List.any_eq_false] at h2
    exact h2 x hx (by simp [he])

/-- C3: remove clears a matching current and promotes the waiting head (the tail
keeps its order); removing a key found in waiting (and not in current) pops
exactly the first matching occurrence, leaving current and the relative order of
all other waiting items intact; removing an absent key returns false and changes
nothing. -/
theorem claim_C3_remove (s : QueueState) (k : String) :
    (currentKeyIs s k = true →
        s.remove k = (true, ⟨s.waiting.head?, s.waiting.tail⟩)) ∧
    (currentKeyIs s k = false → (∃ x ∈ s.waiting, x.user_key = k) →
        (s.remove k).1 = true ∧ (s.remove k).2.current = s.current ∧
        ∃ pre it post, s.waiting = pre ++ it :: post ∧ it.user_key = k ∧
          (∀ x ∈ pre, x.user_key ≠ k) ∧ (s.remove k).2.waiting = pre ++ post) ∧
    (s.has_user k = false → s.remove k = (false, s)) := by
  refine ⟨?_, ?_, ?_⟩
  · intro hc
    unfold QueueState.remove
    rw [hc]
    match hw : s.waiting with
    | [] => simp
    | h :: t => simp
  · intro hc hex
    have hpop : popFirst s.waiting k ≠ none := by
      intro hn
      obtain ⟨x, hx, he⟩ := hex
      exact (popFirst_eq_none s.waiting k).mp hn x hx he
    match hp : popFirst s.waiting k with
    | none => exact absurd hp hpop
    | some p =>
      obtain ⟨pre, post, hl, hkey, hpre, hr⟩ := popFirst_decomp s.waiting k p.1 p.2 (by rw [hp])
      refine ⟨?_, ?_, pre, p.1, post, hl, hkey, hpre, ?_⟩ <;>
        simp [QueueState.remove, hc, hp, hr]
  · intro h
    obtain ⟨h1, h2⟩ := has_user_false_parts s k h
    have hp := (popFirst_eq_none s.waiting k).mpr h2
    simp [QueueState.remove, h1, hp]

def itA : QueueItem := ⟨"a", "A", false, ""⟩

def itB : QueueItem := ⟨"b", "B", false, ""⟩

def itC : QueueItem := ⟨"c", "C", false, ""⟩

theorem claim_C3_witness :
    (QueueState.mk (some itA) [itB, itC]).remove "a" = (true, ⟨some itB, [itC]⟩) ∧
    ((QueueState.mk (some itA) [itB, itC]).remove "b").1 = true ∧
    (QueueState.mk (some itA) [itB]).remove "z" = (false, QueueState.mk (some itA) [itB]) :=
  ⟨(claim_C3_remove ⟨some itA, [itB, itC]⟩ "a").1 rfl,
   ((claim_C3_remove ⟨some itA, [itB, itC]⟩ "b").2.1 rfl ⟨itB, by simp, rfl⟩).1,
   (claim_C3_remove ⟨some itA, [itB]⟩ "z").2.2 rfl⟩

/-- C6: pin_top is a no-op returning false when the key sits in current; on a key
found in waiting it returns true, leaves current untouched and moves exactly the
first matching item to waiting[0], preserving the relative order of all other
waiting items; on a key absent from waiting it returns false and changes nothing. -/
theorem claim_C6_pin_top (s : QueueState) (k : String) :
    (currentKeyIs s k = true → s.pin_top k = (false, s)) ∧
    (currentKeyIs s k = false → (∃ x ∈ s.waiting, x.user_key = k) →
        (s.pin_top k).1 = true ∧ (s.pin_top k).2.current = s.current ∧
        ∃ pre it post, s.waiting = pre ++ it :: post ∧ it.user_key = k ∧
          (∀ x ∈ pre, x.user_key ≠ k) ∧ (s.pin_top k).2.waiting = it :: (pre ++ post)) ∧
    ((∀ x ∈ s.waiting, x.user_key ≠ k) → s.pin_top k = (false, s)) := by
  refine ⟨?_, ?_, ?_⟩
  · intro hc
    unfold QueueState.pin_top
    rw [hc]
    simp
  · intro hc hex
    have hpop : popFirst s.waiting k ≠ none := by
      intro hn
      obtain ⟨x, hx, he⟩ := hex
      exact (popFirst_eq_none s.waiting k).mp hn x hx he
    match hp : popFirst s.waiting k with
    | none => exact absurd hp hpop
    | some p =>
      obtain ⟨pre, post, hl, hkey, hpre, hr⟩ := popFirst_decomp s.waiting k p.1 p.2 (by rw [hp])
      refine ⟨?_, ?_, pre, p.1, post, hl, hkey, hpre, ?_⟩ <;>
        simp [QueueState.pin_top, hc, hp, hr]
  · intro h
    have hp := (popFirst_eq_none s.waiting k).mpr h
    by_cases hc : currentKeyIs s k
    · simp [QueueState.pin_top, hc]
    · simp only [Bool.not_eq_true] at hc
      simp [QueueState.pin_top, hc, hp]

theorem claim_C6_witness :
    (QueueState.mk (some itA) [itB, itC]).pin_top "a" =
        (false, QueueState.mk (some itA) [itB, itC]) ∧
    ((QueueState.mk (some itA) [itB, itC]).pin_top "c").1 = true ∧
    (QueueState.mk (some itA) [itB]).pin_top "z" = (false, QueueState.mk (some itA) [itB]) :=
  ⟨(claim_C6_pin_top ⟨some itA, [itB, itC]⟩ "a").1 rfl,
   ((claim_C6_pin_top ⟨some itA, [itB, itC]⟩ "c").2.1 rfl ⟨itC, by simp, rfl⟩).1,
   (claim_C6_pin_top ⟨some itA, [itB]⟩ "z").2.2 (by decide)⟩

/-- C10: pin_top is idempotent — applying it a second time returns the same
result and the same state as the first application; and pin_top on the key
already at waiting[0] (and not held by current) returns true and leaves the
queue unchanged. -/
theorem claim_C10_pin_top_idempotent (s : QueueState) (k : String) :
    ((s.pin_top k).2).pin_top k = s.pin_top k ∧
    (∀ it rest, s.waiting = it :: rest → it.user_key = k → currentKeyIs s k = false →
        s.pin_top k = (true, s)) := by
  constructor
  · by_cases hc : currentKeyIs s k
    · unfold QueueState.pin_top
      simp [hc]
    · simp only [Bool.not_eq_true] at hc
      match hp : popFirst s.waiting k with
      | none =>
        unfold QueueState.pin_top
        rw [hc]
        simp [hp, hc]
      | some p =>
        have hkey := popFirst_key s.waiting k p.1 p.2 (by rw [hp])
        have hs1 : (s.pin_top k).2 = { s with waiting := p.1 :: p.2 } := by
          unfold QueueState.pin_top
          rw [hc]
          simp [hp]
        have hr1 : s.pin_top k = (true, { s with waiting := p.1 :: p.2 }) := by
          unfold QueueState.pin_top
          rw [hc]
          simp [hp]
        rw [hs1, hr1]
        unfold QueueState.pin_top
        have hc2 : currentKeyIs { s with waiting := p.1 :: p.2 } k = false := hc
        rw [hc2]
        simp [popFirst_cons_self p.1 p.2 k hkey]
  · intro it rest hw hkey hc
    unfold QueueState.pin_top
    rw [hc]
    simp only [Bool.false_eq_true, if_false, hw, popFirst_cons_self it rest k hkey]
    have : s = { s with waiting := it :: rest } := by
      cases s with
      | mk c w => simp at hw; simp [hw]
    rw [← this]

theorem claim_C10_witness :
    ((QueueState.mk (some itA) [itB]).pin_top "b").2.pin_top "b" =
        (QueueState.mk (some itA) [itB]).pin_top "b" ∧
    (QueueState.mk (some itA) [itB]).pin_top "b" = (true, QueueState.mk (some itA) [itB]) :=
  ⟨(claim_C10_pin_top_idempotent ⟨some itA, [itB]⟩ "b").1,
   (claim_C10_pin_top_idempotent ⟨some itA, [itB]⟩ "b").2 itB [] rfl rfl rfl⟩

/-- The invariant of C8: an empty current slot forces an empty waiting list. -/
def headInv (s : QueueState) : Prop := s.current = none → s.waiting = []

theorem enqueue_headInv (s : QueueState) (k u t : String) (N : Nat) (h : headInv s) :
    headInv ((s.enqueue k u N t).2) := by
  unfold QueueState.enqueue
  split
  · exact h
  · split
    · exact h
    · match hc : s.current with
      | none => intro hcur; simp_all [headInv]
      | some c => intro hcur; simp_all


theorem remove_headInv (s : QueueState) (k : String) (h : headInv s) :
    headInv ((s.remove k).2) := by
  unfold QueueState.remove
  by_cases hc : currentKeyIs s k
  · rw [hc]
    match hw : s.waiting with
    | [] => intro _; rfl
    | a :: t => intro hcur; simp at hcur
  · simp only [Bool.not_eq_true] at hc
    rw [hc]
    simp only [Bool.false_eq_true, if_false]
    match hp : popFirst s.waiting k with
    | none => exact h
    | some p =>
      intro hcur
      simp only at hcur
      have hw := h hcur
      rw [hw] at hp
      simp [popFirst] at hp
  
theorem pin_headInv (s : QueueState) (k : String) (h : headInv s) :
    headInv ((s.pin_top k).2) := by
  unfold QueueState.pin_top
  by_cases hc : currentKeyIs s k
  · rw [hc]; exact h
  · simp only [Bool.not_eq_true] at hc
    rw [hc]
    simp only [Bool.false_eq_true, if_false]
    match hp : popFirst s.waiting k with
    | none => exact h
    | some p =>
      intro hcur
      simp only at hcur
      have hw := h hcur
      rw [hw] at hp
      simp [popFirst] at hp

theorem mark_headInv (s : QueueState) (k : String) (m : Bool) (h : headInv s) :
    headInv ((s.set_marked k m).2) := by
  match hc : s.current with
  | some c =>
    by_cases hk : (c.user_key == k) = true
    · intro hcur
      simp [QueueState.set_marked, hc, hk] at hcur
    · match hm : markFirst s.waiting k m with
      | some w =>
        intro hcur
        simp only [QueueState.set_marked, setMarkedWaiting, hc, hk, hm] at hcur
        simp at hcur
      | none =>
        intro hcur
        simp only [QueueState.set_marked, setMarkedWaiting, hc, hk, hm] at hcur
        simp at hcur
        rw [hc] at hcur
        exact absurd hcur (by simp)
  | none =>
    have hw := h hc
    intro _
    simp [QueueState.set_marked, setMarkedWaiting, hc, hw, markFirst]

theorem runOps_headInv (ops : List QOp) (s : QueueState) (h : headInv s) :
    headInv (runOps s ops) := by
  induction ops generalizing s with
  | nil => exact h
  | cons op rest ih =>
    refine ih (applyOp s op) ?_
    match op with
    | QOp.enq k u n t => exact enqueue_headInv s k u t n h
    | QOp.rem k => exact remove_headInv s k h
    | QOp.pin k => exact pin_headInv s k h
    | QOp.mark k m => exact mark_headInv s k m h

/-- C8: after any sequence of enqueue, remove, pin_top and set_marked operations
starting from the empty queue, the current slot is empty only if the waiting
list is empty as well. -/
theorem claim_C8_head_invariant (ops : List QOp) :
    (runOps emptyQueue ops).current = none → (runOps emptyQueue ops).waiting = [] :=
  runOps_headInv ops emptyQueue (fun _ => rfl)

theorem claim_C8_witness :
    (runOps emptyQueue [QOp.enq "a" "A" 2 "", QOp.rem "a"]).waiting = [] :=
  claim_C8_head_invariant [QOp.enq "a" "A" 2 "", QOp.rem "a"] rfl

/-! Configuration and runtime model from src/app/config.py and src/app/runtime.py. -/

/-- ServerConfig from config.py. -/
structure ServerConfig where
  host : String := "127.0.0.1"
  port : Nat := 10000
deriving DecidableEq

/-- QueueConfig from config.py. -/
structure QueueConfig where
  keyword : String := "排队"
  max_queue : Nat := 10
  match_mode : String := "exact"
  pause_message : String := "当前暂停排队"
  auto_pause_time : String := ""
  pause_check_interval_seconds : Nat := 60
deriving DecidableEq

/-- UiConfig from config.py. -/
structure UiConfig where
  overlay_title : String := "排队"
  current_title : String := "当前"
  queue_title : String := "队列"
  empty_text : String := "当前无人排队"
  marked_color : String := "#ff5a5a"
  overlay_show_mark : Bool := false
deriving DecidableEq

/-- StyleConfig from config.py. -/
structure StyleConfig where
  custom_css_path : String := "./custom.css"
deriving DecidableEq

/-- OpenLiveConfig from config.py; access_secret is an API secret. -/
structure OpenLiveConfig where
  access_key : String := ""
  access_secret : String := ""
  app_id : Nat := 0
  identity_code : String := ""
deriving DecidableEq

/-- WebDanmakuConfig from config.py; sessdata is the web session credential. -/
structure WebDanmakuConfig where
  sessdata : String := ""
  room_id : Nat := 0
  auto_fetch_cookie : Bool := false
deriving DecidableEq

/-- BiliConfig from config.py. -/
structure BiliConfig where
  mode : String := "auto"
  open_live : OpenLiveConfig := {}
  web : WebDanmakuConfig := {}
deriving DecidableEq

/-- AppConfig from config.py (runtime sub-config omitted: state_payload and
process_event never read it). -/
structure AppConfig where
  server : ServerConfig := {}
  queue : QueueConfig := {}
  ui : UiConfig := {}
  style : StyleConfig := {}
  bilibili : BiliConfig := {}
deriving DecidableEq

/-- RuntimeState from runtime.py. Timestamps are wall-clock microseconds. -/
structure RuntimeState where
  status : String := "stopped"
  test_enabled : Bool := false
  danmaku_status : String := "idle"
  danmaku_error : Option String := none
  active_mode : Option String := none
  queue_paused : Bool := false
  queue_pause_reason : Option String := none
  queue_auto_pause_time : String := ""
  queue_pause_until_ts : Option Nat := none
  queue_pause_check_interval : Nat := 60
deriving DecidableEq

/-- The state slice of AppContext (context.py) read by the pure operations. -/
structure AppContext where
  cfg : AppConfig := {}
  runtime : RuntimeState := {}
  queue : QueueState := {}
deriving DecidableEq

/-- DanmakuEvent from events.py. -/
structure DanmakuEvent where
  uname : String
  msg : String
  user_key : Option String := none
  source : String := "unknown"
deriving DecidableEq

/-- Whitespace as Python str.strip() treats it (ASCII range). -/
def isPyWS (c : Char) : Bool :=
  c = ' ' || c = '\t' || c = '\n' || c = '\r' || c = Char.ofNat 11 || c = Char.ofNat 12

/-- Python str.strip(): drop leading and trailing whitespace. -/
def pyStrip (s : String) : String :=
  ⟨((s.data.dropWhile isPyWS).reverse.dropWhile isPyWS).reverse⟩

/-- Python falsy-or over an optional string, as in (ev.user_key or ev.uname):
None and the empty string fall back to the second operand. -/
def pyOr (a : Option String) (b : String) : String :=
  match a with
  | none => b
  | some s => if s = "" then b else s

/-- The identity process_event enqueues: (ev.user_key or ev.uname).strip(). -/
def effectiveUserKey (ev : DanmakuEvent) : String := pyStrip (pyOr ev.user_key ev.uname)

/-- Needle is a prefix of hay (character lists). -/
def charsIsPref : List Char → List Char → Bool
  | [], _ => true
  | _ :: _, [] => false
  | a :: as, b :: bs => a == b && charsIsPref as bs

/-- Python substring membership (needle in hay) over character lists. -/
def charsContains (hay need : List Char) : Bool :=
  match hay with
  | [] => need.isEmpty
  | _ :: t => charsIsPref need hay || charsContains t need

/-- Python str membership: needle in hay. -/
def strContains (hay need : String) : Bool := charsContains hay.toList need.toList

/-- The keyword test of process_event: exact equality on the trimmed message, or
substring containment for any other match_mode (context.py treats every
non-exact mode as contains). -/
def messageMatches (mode keyword msg : String) : Bool :=
  if mode = "exact" then msg == keyword else strContains msg keyword

/-- AppContext.process_event from context.py, as a pure function of the state
slice it reads; returns ((changed, reason), queue after the call). -/
def process_event (ctx : AppContext) (ev : DanmakuEvent) (now : String) :
    (Bool × String) × QueueState :=
  if ctx.runtime.status ≠ "running" then ((false, "not_running"), ctx.queue)
  else if ctx.runtime.queue_paused then ((false, "paused"), ctx.queue)
  else if pyStrip ctx.cfg.queue.keyword = "" then ((false, "no_keyword"), ctx.queue)
  else if messageMatches ctx.cfg.queue.match_mode (pyStrip ctx.cfg.queue.keyword)
      (pyStrip ev.msg) = false then ((false, "no_match"), ctx.queue)
  else if effectiveUserKey ev = "" then ((false, "no_user_key"), ctx.queue)
  else ctx.queue.enqueue (effectiveUserKey ev) ev.uname ctx.cfg.queue.max_queue now

theorem enqueue_cases (s : QueueState) (k u t : String) (N : Nat) :
    s.enqueue k u N t = ((false, "duplicate"), s) ∨
    s.enqueue k u N t = ((false, "full"), s) ∨
    (s.enqueue k u N t).1 = (true, "ok") := by
  unfold QueueState.enqueue
  split
  · exact Or.inl rfl
  · split
    · exact Or.inr (Or.inl rfl)
    · match s.current with
      | none => exact Or.inr (Or.inr rfl)
      | some c => exact Or.inr (Or.inr rfl)

/-- C2: process_event applies the admission checks in short-circuit order, each
reason holding exactly when its check is the first to fail: not_running, then
paused, then no_keyword (keyword empty after strip), then no_match (the stripped
message fails the configured match mode: equality for exact, substring
containment otherwise), then no_user_key (no identity remains); past all checks
the enqueue result is propagated, changed is true exactly for reason "ok", and
the queue state changes only in that case. -/
theorem claim_C2_admission_order (ctx : AppContext) (ev : DanmakuEvent) (now : String) :
    ((process_event ctx ev now).1.2 = "not_running" ↔ ¬ ctx.runtime.status = "running") ∧
    ((process_event ctx ev now).1.2 = "paused" ↔
      ctx.runtime.status = "running" ∧ ctx.runtime.queue_paused = true) ∧
    ((process_event ctx ev now).1.2 = "no_keyword" ↔
      ctx.runtime.status = "running" ∧ ctx.runtime.queue_paused = false ∧
      pyStrip ctx.cfg.queue.keyword = "") ∧
    ((process_event ctx ev now).1.2 = "no_match" ↔
      ctx.runtime.status = "running" ∧ ctx.runtime.queue_paused = false ∧
      pyStrip ctx.cfg.queue.keyword ≠ "" ∧
      messageMatches ctx.cfg.queue.match_mode (pyStrip ctx.cfg.queue.keyword)
        (pyStrip ev.msg) = false) ∧
    ((process_event ctx ev now).1.2 = "no_user_key" ↔
      ctx.runtime.status = "running" ∧ ctx.runtime.queue_paused = false ∧
      pyStrip ctx.cfg.queue.keyword ≠ "" ∧
      messageMatches ctx.cfg.queue.match_mode (pyStrip ctx.cfg.queue.keyword)
        (pyStrip ev.msg) = true ∧ effectiveUserKey ev = "") ∧
    (ctx.runtime.status = "running" → ctx.runtime.queue_paused = false →
      pyStrip ctx.cfg.queue.keyword ≠ "" →
      messageMatches ctx.cfg.queue.match_mode (pyStrip ctx.cfg.queue.keyword)
        (pyStrip ev.msg) = true → effectiveUserKey ev ≠ "" →
      process_event ctx ev now =
        ctx.queue.enqueue (effectiveUserKey ev) ev.uname ctx.cfg.queue.max_queue now) ∧
    ((process_event ctx ev now).1.1 = true ↔ (process_event ctx ev now).1.2 = "ok") ∧
    ((process_event ctx ev now).2 ≠ ctx.queue → (process_event ctx ev now).1.2 = "ok") := by
  by_cases h1 : ctx.runtime.status = "running"
  · cases h2 : ctx.runtime.queue_paused with
    | true =>
      have hr : process_event ctx ev now = ((false, "paused"), ctx.queue) := by
        simp [process_event, h1, h2]
      rw [hr]
      simp [h1, h2]
    | false =>
      by_cases h3 : pyStrip ctx.cfg.queue.keyword = ""
      · have hr : process_event ctx ev now = ((false, "no_keyword"), ctx.queue) := by
          simp [process_event, h1, h2, h3]
        rw [hr]
        simp [h1, h2, h3]
      · cases h4 : messageMatches ctx.cfg.queue.match_mode (pyStrip ctx.cfg.queue.keyword)
          (pyStrip ev.msg) with
        | false =>
          have hr : process_event ctx ev now = ((false, "no_match"), ctx.queue) := by
            simp [process_event, h1, h2, h3, h4]
          rw [hr]
          simp [h1, h2, h3, h4]
        | true =>
          by_cases h5 : effectiveUserKey ev = ""
          · have hr : process_event ctx ev now = ((false, "no_user_key"), ctx.queue) := by
              simp [process_event, h1, h2, h3, h4, h5]
            rw [hr]
            simp [h1, h2, h3, h4, h5]
          · have hr : process_event ctx ev now =
                ctx.queue.enqueue (effectiveUserKey ev) ev.uname ctx.cfg.queue.max_queue now := by
              simp [process_event, h1, h2, h3, h4, h5]
            rw [hr]
            rcases enqueue_cases ctx.queue (effectiveUserKey ev) ev.uname now
                ctx.cfg.queue.max_queue with hq | hq | hq
            · rw [hq]
              simp [h1, h2, h3, h4, h5]
            · rw [hq]
              simp [h1, h2, h3, h4, h5]
            · have h11 : (ctx.queue.enqueue (effectiveUserKey ev) ev.uname
                  ctx.cfg.queue.max_queue now).1.1 = true := by rw [hq]
              have h12 : (ctx.queue.enqueue (effectiveUserKey ev) ev.uname
                  ctx.cfg.queue.max_queue now).1.2 = "ok" := by rw [hq]
              simp [h11, h12, h1, h2, h3, h4, h5]
  · have hr : process_event ctx ev now = ((false, "not_running"), ctx.queue) := by
      simp [process_event, h1]
    rw [hr]
    simp [h1]

/-- A running context at the default configuration (keyword 排队, exact match). -/
def ctxRun : AppContext := { runtime := { status := "running" } }

/-- An event whose explicit user_key is whitespace only. -/
def evWS : DanmakuEvent := { uname := "Alice", msg := "排队", user_key := some " " }

/-- C4 counterexample: an event that passes the not_running, paused, no_keyword
and no_match checks, whose display name is non-empty after stripping, yet
process_event returns no_user_key — because a whitespace-only user_key is truthy
in Python, so it never falls back to the display name. -/
theorem claim_C4_counterexample :
    ctxRun.runtime.status = "running" ∧ ctxRun.runtime.queue_paused = false ∧
    pyStrip ctxRun.cfg.queue.keyword ≠ "" ∧
    messageMatches ctxRun.cfg.queue.match_mode (pyStrip ctxRun.cfg.queue.keyword)
      (pyStrip evWS.msg) = true ∧
    pyStrip evWS.uname ≠ "" ∧
    (process_event ctxRun evWS "t").1.2 = "no_user_key" := by
  refine ⟨rfl, rfl, by decide, by decide, by decide, by decide⟩

/-- C4 amended: past the earlier checks, no_user_key is returned iff the
effective identity — user_key when non-empty, else the display name — is empty
after stripping; in particular when user_key is absent or the empty string and
the display name is non-empty after stripping, no_user_key is never returned. -/
theorem claim_C4_effective_user_key (ctx : AppContext) (ev : DanmakuEvent) (now : String)
    (h1 : ctx.runtime.status = "running") (h2 : ctx.runtime.queue_paused = false)
    (h3 : pyStrip ctx.cfg.queue.keyword ≠ "")
    (h4 : messageMatches ctx.cfg.queue.match_mode (pyStrip ctx.cfg.queue.keyword)
      (pyStrip ev.msg) = true) :
    ((process_event ctx ev now).1.2 = "no_user_key" ↔ effectiveUserKey ev = "") ∧
    ((ev.user_key = none ∨ ev.user_key = some "") → pyStrip ev.uname ≠ "" →
      (process_event ctx ev now).1.2 ≠ "no_user_key") := by
  have hiff : (process_event ctx ev now).1.2 = "no_user_key" ↔ effectiveUserKey ev = "" := by
    by_cases h5 : effectiveUserKey ev = ""
    · have hr : process_event ctx ev now = ((false, "no_user_key"), ctx.queue) := by
        simp [process_event, h1, h2, h3, h4, h5]
      rw [hr]
      simp [h5]
    · have hr : process_event ctx ev now =
          ctx.queue.enqueue (effectiveUserKey ev) ev.uname ctx.cfg.queue.max_queue now := by
        simp [process_event, h1, h2, h3, h4, h5]
      rw [hr]
      rcases enqueue_cases ctx.queue (effectiveUserKey ev) ev.uname now
          ctx.cfg.queue.max_queue with hq | hq | hq
      · rw [hq]; simp [h5]
      · rw [hq]; simp [h5]
      · have h12 : (ctx.queue.enqueue (effectiveUserKey ev) ev.uname
            ctx.cfg.queue.max_queue now).1.2 = "ok" := by rw [hq]
        rw [h12]; simp [h5]
  refine ⟨hiff, ?_⟩
  intro hfb hun hcontra
  have h0 := hiff.mp hcontra
  rcases hfb with hn | hs
  · simp [effectiveUserKey, pyOr, hn] at h0
    exact hun h0
  · simp [effectiveUserKey, pyOr, hs] at h0
    exact hun h0

/-- An event with no explicit user_key at all. -/
def evNoKey : DanmakuEvent := { uname := "Alice", msg := "排队", user_key := none }

theorem claim_C4_witness :
    (process_event ctxRun evNoKey "t").1.2 ≠ "no_user_key" :=
  (claim_C4_effective_user_key ctxRun evNoKey "t" rfl rfl (by decide) (by decide)).2
    (Or.inl rfl) (by decide)

theorem claim_C2_witness :
    process_event ctxRun evNoKey "t" =
      ctxRun.queue.enqueue (effectiveUserKey evNoKey) evNoKey.uname
        ctxRun.cfg.queue.max_queue "t" :=
  (claim_C2_admission_order ctxRun evNoKey "t").2.2.2.2.2.1 rfl rfl (by decide)
    (by decide) (by decide)

/-! Wall-clock model for the auto-pause scheduler (context.py). A PyDateTime is
a naive datetime reduced to a day index plus time-of-day fields; ordering is
lexicographic as for Python datetimes of the same month, and timestamps are
rendered in microseconds. -/

structure PyDateTime where
  day : Nat
  hour : Nat
  minute : Nat
  second : Nat
  microsecond : Nat
deriving DecidableEq

/-- Python datetime comparison (same month), lexicographic on the fields. -/
def PyDateTime.leB (a b : PyDateTime) : Bool :=
  if a.day < b.day then true else if b.day < a.day then false
  else if a.hour < b.hour then true else if b.hour < a.hour then false
  else if a.minute < b.minute then true else if b.minute < a.minute then false
  else if a.second < b.second then true else if b.second < a.second then false
  else a.microsecond ≤ b.microsecond

/-- Python datetime.timestamp(), in microseconds since the day-0 epoch. -/
def PyDateTime.toMicros (d : PyDateTime) : Nat :=
  d.day * 86400000000 + d.hour * 3600000000 + d.minute * 60000000 +
    d.second * 1000000 + d.microsecond

/-- Fields within their calendar ranges, as any datetime.now() value satisfies. -/
def PyDateTime.inRange (d : PyDateTime) : Prop :=
  d.hour ≤ 23 ∧ d.minute ≤ 59 ∧ d.second ≤ 59 ∧ d.microsecond ≤ 999999

/-- Python str.isdigit restricted to the ASCII digits the spec's HH:MM uses. -/
def isDigitChar (c : Char) : Bool := 48 ≤ c.toNat && c.toNat ≤ 57

/-- Python "".join-free model of s.isdigit(): non-empty and all digits. -/
def strIsDigit (xs : List Char) : Bool := !xs.isEmpty && xs.all isDigitChar

/-- Python s.split(":", 1): the part before the first colon and the part after
it. The no-colon case returns the whole list on the left; context.py only
splits strings already known to hold a colon at index 2. -/
def splitFirstColon : List Char → List Char × List Char
  | [] => ([], [])
  | c :: t =>
    if c = ':' then ([], t)
    else ((splitFirstColon t).1.cons c, (splitFirstColon t).2)

/-- Numeric value of a digit string, as Python int() on a validated string. -/
def digitsToNat (xs : List Char) : Nat := xs.foldl (fun a c => a * 10 + (c.toNat - 48)) 0

/-- The _is_valid_hhmm validation from context.py: length 5, a colon at index 2,
both sides all digits, hours 00-23 and minutes 00-59. -/
def isValidHHMM (s : String) : Bool :=
  if s.data.length = 5 then
    match s.data.get? 2 with
    | some c =>
      if c = ':' then
        strIsDigit (splitFirstColon s.data).1 && strIsDigit (splitFirstColon s.data).2 &&
          decide (digitsToNat (splitFirstColon s.data).1 ≤ 23) &&
          decide (digitsToNat (splitFirstColon s.data).2 ≤ 59)
      else false
    | none => false
  else false

/-- The _next_timestamp_for_time_str computation from context.py: today's
occurrence of HH:MM if now is strictly before it, else tomorrow's; none for an
empty or invalid string. -/
def nextTimestampForTimeStr (s : String) (now : PyDateTime) : Option Nat :=
  if s = "" then none
  else if isValidHHMM s = false then none
  else
    let hh := digitsToNat (splitFirstColon s.data).1
    let mm := digitsToNat (splitFirstColon s.data).2
    let target : PyDateTime :=
      { day := now.day, hour := hh, minute := mm, second := 0, microsecond := 0 }
    if target.leB now then
      some (PyDateTime.toMicros { target with day := target.day + 1 })
    else some target.toMicros

/-- Today's occurrence of the wall-clock time h:m relative to now. -/
def todayAt (now : PyDateTime) (h m : Nat) : PyDateTime :=
  { day := now.day, hour := h, minute := m, second := 0, microsecond := 0 }

/-- The canonical zero-padded HH:MM rendering of an in-range hour and minute. -/
def hhmmString (h m : Nat) : String :=
  ⟨[Char.ofNat (48 + h / 10), Char.ofNat (48 + h % 10), ':',
    Char.ofNat (48 + m / 10), Char.ofNat (48 + m % 10)]⟩

theorem char_digit_toNat (d : Nat) (hd : d ≤ 9) : (Char.ofNat (48 + d)).toNat = 48 + d := by
  interval_cases d <;> rfl

theorem char_digit_ne_colon (d : Nat) (hd : d ≤ 9) : Char.ofNat (48 + d) ≠ ':' := by
  intro he
  have h1 := congrArg Char.toNat he
  rw [char_digit_toNat d hd] at h1
  have h2 : (':' : Char).toNat = 58 := rfl
  rw [h2] at h1
  omega

theorem hhmm_split (h m : Nat) (hh : h ≤ 23) (hm : m ≤ 59) :
    splitFirstColon (hhmmString h m).data =
      ([Char.ofNat (48 + h / 10), Char.ofNat (48 + h % 10)],
       [Char.ofNat (48 + m / 10), Char.ofNat (48 + m % 10)]) := by
  have n1 := char_digit_ne_colon (h / 10) (by omega)
  have n2 := char_digit_ne_colon (h % 10) (by omega)
  simp [hhmmString, splitFirstColon, n1, n2]

theorem digitsToNat_pair (x y : Nat) (hx : x ≤ 9) (hy : y ≤ 9) :
    digitsToNat [Char.ofNat (48 + x), Char.ofNat (48 + y)] = x * 10 + y := by
  simp [digitsToNat, char_digit_toNat x hx, char_digit_toNat y hy]

theorem hhmm_valid (h m : Nat) (hh : h ≤ 23) (hm : m ≤ 59) :
    isValidHHMM (hhmmString h m) = true := by
  have hsplit := hhmm_split h m hh hm
  have hp1 : digitsToNat (splitFirstColon (hhmmString h m).data).1 = h := by
    rw [hsplit]
    rw [digitsToNat_pair (h / 10) (h % 10) (by omega) (by omega)]
    omega
  have hp2 : digitsToNat (splitFirstColon (hhmmString h m).data).2 = m := by
    rw [hsplit]
    rw [digitsToNat_pair (m / 10) (m % 10) (by omega) (by omega)]
    omega
  rw [isValidHHMM]
  rw [show (hhmmString h m).data.length = 5 from rfl]
  rw [show (hhmmString h m).data.get? 2 = some ':' from rfl]
  simp only [if_pos rfl, if_true]
  rw [hsplit] at hp1 hp2 ⊢
  simp [strIsDigit, isDigitChar, char_digit_toNat (h / 10) (by omega),
    char_digit_toNat (h % 10) (by omega), char_digit_toNat (m / 10) (by omega),
    char_digit_toNat (m % 10) (by omega), hp1, hp2, hh, hm]
  omega

theorem leB_iff_micros (a b : PyDateTime) (ha : a.inRange) (hb : b.inRange) :
    a.leB b = true ↔ a.toMicros ≤ b.toMicros := by
  obtain ⟨ha1, ha2, ha3, ha4⟩ := ha
  obtain ⟨hb1, hb2, hb3, hb4⟩ := hb
  unfold PyDateTime.leB PyDateTime.toMicros
  split_ifs <;> simp <;> omega

/-- C5: for an in-range hour and minute rendered as HH:MM and an in-range now,
the next-trigger computation returns today's occurrence when now is strictly
before that wall-clock time and tomorrow's occurrence once now has reached it
(equality included, mirroring the target <= now test of context.py); for any
string failing the HH:MM validation — the empty string included — it is none. -/
theorem claim_C5_next_trigger (h m : Nat) (now : PyDateTime) (hh : h ≤ 23) (hm : m ≤ 59)
    (hr : now.inRange) :
    (now.toMicros < (todayAt now h m).toMicros →
      nextTimestampForTimeStr (hhmmString h m) now = some (todayAt now h m).toMicros) ∧
    ((todayAt now h m).toMicros ≤ now.toMicros →
      nextTimestampForTimeStr (hhmmString h m) now =
        some (PyDateTime.toMicros { todayAt now h m with day := now.day + 1 })) ∧
    (∀ s : String, isValidHHMM s = false → nextTimestampForTimeStr s now = none) := by
  have hne : hhmmString h m ≠ "" := by
    intro he
    have h0 := congrArg String.data he
    simp [hhmmString] at h0
  have hvalid := hhmm_valid h m hh hm
  have hsplit := hhmm_split h m hh hm
  have hp1 : digitsToNat (splitFirstColon (hhmmString h m).data).1 = h := by
    rw [hsplit]
    rw [digitsToNat_pair (h / 10) (h % 10) (by omega) (by omega)]
    omega
  have hp2 : digitsToNat (splitFirstColon (hhmmString h m).data).2 = m := by
    rw [hsplit]
    rw [digitsToNat_pair (m / 10) (m % 10) (by omega) (by omega)]
    omega
  have htr : (todayAt now h m).inRange := by
    simp [PyDateTime.inRange, todayAt]
    omega
  refine ⟨?_, ?_, ?_⟩
  · intro hlt
    have hle : (todayAt now h m).leB now = false := by
      rw [Bool.eq_false_iff]
      intro htrue
      have := (leB_iff_micros _ _ htr hr).mp htrue
      omega
    simp [nextTimestampForTimeStr, hne, hvalid, hp1, hp2, todayAt] at hle ⊢
    simp [hle]
  · intro hge
    have hle : (todayAt now h m).leB now = true :=
      (leB_iff_micros _ _ htr hr).mpr hge
    simp [nextTimestampForTimeStr, hne, hvalid, hp1, hp2, todayAt] at hle ⊢
    simp [hle]
  · intro s hs
    by_cases hse : s = ""
    · simp [nextTimestampForTimeStr, hse]
    · simp [nextTimestampForTimeStr, hse, hs]

theorem claim_C5_witness :
    nextTimestampForTimeStr (hhmmString 9 0) ⟨0, 8, 59, 0, 0⟩ =
      some (todayAt ⟨0, 8, 59, 0, 0⟩ 9 0).toMicros ∧
    nextTimestampForTimeStr (hhmmString 9 0) ⟨0, 9, 1, 0, 0⟩ =
      some (PyDateTime.toMicros { todayAt ⟨0, 9, 1, 0, 0⟩ 9 0 with day := 1 }) ∧
    nextTimestampForTimeStr "" ⟨0, 8, 59, 0, 0⟩ = none :=
  ⟨(claim_C5_next_trigger 9 0 ⟨0, 8, 59, 0, 0⟩ (by decide) (by decide)
      ⟨by decide, by decide, by decide, by decide⟩).1 (by decide),
   (claim_C5_next_trigger 9 0 ⟨0, 9, 1, 0, 0⟩ (by decide) (by decide)
      ⟨by decide, by decide, by decide, by decide⟩).2.1 (by decide),
   (claim_C5_next_trigger 9 0 ⟨0, 8, 59, 0, 0⟩ (by decide) (by decide)
      ⟨by decide, by decide, by decide, by decide⟩).2.2 "" (by decide)⟩

/-- The literal pause reason written by _maybe_auto_pause_locked in context.py. -/
def autoPauseReason : String := "自动暂停"

/-- AppContext._maybe_auto_pause_locked from context.py, as a pure step on the
runtime state given the current wall-clock instant; returns (changed, state). -/
def maybeAutoPause (rt : RuntimeState) (now : PyDateTime) : Bool × RuntimeState :=
  if rt.status ≠ "running" then (false, rt)
  else if rt.queue_paused then (false, rt)
  else if rt.queue_auto_pause_time = "" then (false, rt)
  else
    match (match rt.queue_pause_until_ts with
           | some t => some t
           | none => nextTimestampForTimeStr rt.queue_auto_pause_time now) with
    | none => (false, rt)
    | some t =>
      if t ≤ now.toMicros then
        (true,
          { rt with
            queue_paused := true
            queue_pause_reason := some autoPauseReason
            queue_pause_until_ts := none })
      else (false, { rt with queue_pause_until_ts := some t })

theorem isValidHHMM_bounds (s : String) (h : isValidHHMM s = true) :
    digitsToNat (splitFirstColon s.data).1 ≤ 23 ∧
      digitsToNat (splitFirstColon s.data).2 ≤ 59 := by
  rw [isValidHHMM] at h
  split at h
  · split at h
    · split at h
      · simp only [Bool.and_eq_true, decide_eq_true_eq] at h
        exact ⟨h.1.2, h.2⟩
      · simp at h
    · simp at h
  · simp at h

theorem nextTimestamp_future (s : String) (now : PyDateTime) (t : Nat)
    (hr : now.inRange) (h : nextTimestampForTimeStr s now = some t) :
    now.toMicros < t := by
  by_cases hse : s = ""
  · simp [nextTimestampForTimeStr, hse] at h
  · by_cases hvd : isValidHHMM s = true
    · obtain ⟨hb1, hb2⟩ := isValidHHMM_bounds s hvd
      obtain ⟨hr1, hr2, hr3, hr4⟩ := hr
      rw [nextTimestampForTimeStr] at h
      rw [if_neg hse, hvd] at h
      simp only [Bool.true_eq_false, if_false] at h
      split at h
      · have ht := Option.some.inj h
        rw [← ht]
        simp only [PyDateTime.toMicros]
        omega
      · rename_i hcmp
        have ht := Option.some.inj h
        rw [← ht]
        have htr : (PyDateTime.mk now.day (digitsToNat (splitFirstColon s.data).1)
            (digitsToNat (splitFirstColon s.data).2) 0 0).inRange :=
          ⟨hb1, hb2, Nat.zero_le _, Nat.zero_le _⟩
        have hnle : ¬ PyDateTime.toMicros (PyDateTime.mk now.day
            (digitsToNat (splitFirstColon s.data).1)
            (digitsToNat (splitFirstColon s.data).2) 0 0) ≤ now.toMicros := by
          intro hle
          exact hcmp ((leB_iff_micros _ now htr ⟨hr1, hr2, hr3, hr4⟩).mpr hle)
        simp only [PyDateTime.toMicros] at hnle ⊢
        omega
    · simp only [Bool.not_eq_true] at hvd
      simp [nextTimestampForTimeStr, hse, hvd] at h

/-- C7 counterexample: a tick that fires records the pause reason as the literal
自动暂停 used by context.py, not the string "auto" stated by the claim. -/
theorem claim_C7_counterexample :
    (maybeAutoPause
        { status := "running", queue_auto_pause_time := "09:00",
          queue_pause_until_ts := some 5 } ⟨0, 9, 1, 0, 0⟩).1 = true ∧
    (maybeAutoPause
        { status := "running", queue_auto_pause_time := "09:00",
          queue_pause_until_ts := some 5 } ⟨0, 9, 1, 0, 0⟩).2.queue_pause_reason ≠
      some "auto" := by
  refine ⟨by decide, by decide⟩

/-- C7 amended: the tick reports a change exactly when the runtime is running,
the queue is not yet paused, an auto-pause time string is configured, and the
stored next-trigger has been reached by now; it then pauses the queue with the
code's auto-pause reason marker (自动暂停) and clears the stored trigger. In
every other case it reports no change and leaves queue_paused and the pause
reason untouched (a freshly recomputed trigger always lies in the future, so a
tick never fires on a trigger it arms itself). -/
theorem claim_C7_auto_pause_tick (rt : RuntimeState) (now : PyDateTime)
    (hr : now.inRange) :
    ((maybeAutoPause rt now).1 = true ↔
      rt.status = "running" ∧ rt.queue_paused = false ∧ rt.queue_auto_pause_time ≠ "" ∧
      ∃ t, rt.queue_pause_until_ts = some t ∧ t ≤ now.toMicros) ∧
    ((maybeAutoPause rt now).1 = true →
      (maybeAutoPause rt now).2.queue_paused = true ∧
      (maybeAutoPause rt now).2.queue_pause_reason = some autoPauseReason ∧
      (maybeAutoPause rt now).2.queue_pause_until_ts = none) ∧
    ((maybeAutoPause rt now).1 = false →
      (maybeAutoPause rt now).2.queue_paused = rt.queue_paused ∧
      (maybeAutoPause rt now).2.queue_pause_reason = rt.queue_pause_reason) := by
  by_cases hs : rt.status = "running"
  · cases hp : rt.queue_paused with
    | true =>
      have heq : maybeAutoPause rt now = (false, rt) := by
        simp [maybeAutoPause, hs, hp]
      rw [heq]
      simp [hp]
    | false =>
      by_cases ht : rt.queue_auto_pause_time = ""
      · have heq : maybeAutoPause rt now = (false, rt) := by
          simp [maybeAutoPause, hs, hp, ht]
        rw [heq]
        simp [hs, hp, ht]
      · match hts : rt.queue_pause_until_ts with
        | some t =>
          by_cases hcmp : t ≤ now.toMicros
          · have heq : maybeAutoPause rt now =
                (true,
                  { rt with
                    queue_paused := true
                    queue_pause_reason := some autoPauseReason
                    queue_pause_until_ts := none }) := by
              simp [maybeAutoPause, hs, hp, ht, hts, hcmp]
            rw [heq]
            simp [hs, hp, ht, hcmp]
          · have heq : maybeAutoPause rt now =
                (false, { rt with queue_pause_until_ts := some t }) := by
              simp [maybeAutoPause, hs, hp, ht, hts, hcmp]
            rw [heq]
            simp [hs, hp, ht, hcmp]
        | none =>
          match hnx : nextTimestampForTimeStr rt.queue_auto_pause_time now with
          | none =>
            have heq : maybeAutoPause rt now = (false, rt) := by
              simp [maybeAutoPause, hs, hp, ht, hts, hnx]
            rw [heq]
            simp [hs, hp, ht]
          | some t =>
            have hft := nextTimestamp_future rt.queue_auto_pause_time now t hr hnx
            have hcmp : ¬ t ≤ now.toMicros := by omega
            have heq : maybeAutoPause rt now =
                (false, { rt with queue_pause_until_ts := some t }) := by
              simp [maybeAutoPause, hs, hp, ht, hts, hnx, hcmp]
            rw [heq]
            simp [hs, hp, ht]
  · have heq : maybeAutoPause rt now = (false, rt) := by
      simp [maybeAutoPause, hs]
    rw [heq]
    simp [hs]

theorem claim_C7_witness :
    (maybeAutoPause
        { status := "running", queue_auto_pause_time := "09:00",
          queue_pause_until_ts := some 5 } ⟨0, 9, 1, 0, 0⟩).1 = true :=
  ((claim_C7_auto_pause_tick
      { status := "running", queue_auto_pause_time := "09:00",
        queue_pause_until_ts := some 5 } ⟨0, 9, 1, 0, 0⟩
      ⟨by decide, by decide, by decide, by decide⟩).1).mpr
    ⟨rfl, rfl, by decide, 5, rfl, by decide⟩

/-! The snapshot document produced by AppContext.state_payload (context.py). The
nested dict is modelled as nested structures; the config.server / config.queue /
config.ui / config.style sections echo those config records verbatim, while the
bilibili section renders the two secrets through the mask. -/

/-- QueueState.to_dict from queue.py. -/
def QueueState.to_list (s : QueueState) : List QueueItem :=
  (match s.current with | some it => [it] | none => []) ++ s.waiting

structure QueueDoc where
  items : List QueueItem
  max_queue : Nat
  total : Nat
  is_full : Bool
  paused : Bool
  pause_reason : Option String
  pause_message : String
  auto_pause_time : String
deriving DecidableEq

structure RuntimeDoc where
  status : String
  test_enabled : Bool
  overlay_url : String
  danmaku_status : String
  danmaku_error : Option String
  active_mode : Option String
  queue_paused : Bool
  queue_pause_reason : Option String
  queue_auto_pause_time : String
  queue_pause_until_ts : Option Nat
deriving DecidableEq

structure OpenLiveDoc where
  access_key : String
  access_secret : String
  app_id : Nat
  identity_code : String
deriving DecidableEq

structure WebDoc where
  sessdata : String
  room_id : Nat
  auto_fetch_cookie : Bool
deriving DecidableEq

structure BiliDoc where
  mode : String
  open_live : OpenLiveDoc
  web : WebDoc
deriving DecidableEq

structure ConfigDoc where
  server : ServerConfig
  queue : QueueConfig
  ui : UiConfig
  style : StyleConfig
  bilibili : BiliDoc
deriving DecidableEq

structure StateDoc where
  type : String
  runtime : RuntimeDoc
  config : ConfigDoc
  queue : QueueDoc
deriving DecidableEq

/-- The fixed placeholder secret_mask of state_payload. -/
def secretMask : String := "********"

/-- AppContext.overlay_url from context.py. -/
def AppContext.overlay_url (ctx : AppContext) : String :=
  "http://" ++ ctx.cfg.server.host ++ ":" ++ toString ctx.cfg.server.port ++ "/overlay"

/-- AppContext.state_payload from context.py: the full snapshot document, with
sessdata and access_secret rendered as the mask when non-empty and as the empty
string when empty. -/
def state_payload (ctx : AppContext) : StateDoc :=
  { type := "state"
    runtime :=
      { status := ctx.runtime.status
        test_enabled := ctx.runtime.test_enabled
        overlay_url := ctx.overlay_url
        danmaku_status := ctx.runtime.danmaku_status
        danmaku_error := ctx.runtime.danmaku_error
        active_mode := ctx.runtime.active_mode
        queue_paused := ctx.runtime.queue_paused
        queue_pause_reason := ctx.runtime.queue_pause_reason
        queue_auto_pause_time := ctx.runtime.queue_auto_pause_time
        queue_pause_until_ts := ctx.runtime.queue_pause_until_ts }
    config :=
      { server := ctx.cfg.server
        queue := ctx.cfg.queue
        ui := ctx.cfg.ui
        style := ctx.cfg.style
        bilibili :=
          { mode := ctx.cfg.bilibili.mode
            open_live :=
              { access_key := ctx.cfg.bilibili.open_live.access_key
                access_secret :=
                  if ctx.cfg.bilibili.open_live.access_secret = "" then ""
                  else secretMask
                app_id := ctx.cfg.bilibili.open_live.app_id
                identity_code := ctx.cfg.bilibili.open_live.identity_code }
            web :=
              { sessdata :=
                  if ctx.cfg.bilibili.web.sessdata = "" then "" else secretMask
                room_id := ctx.cfg.bilibili.web.room_id
                auto_fetch_cookie := ctx.cfg.bilibili.web.auto_fetch_cookie } } }
    queue :=
      { items := ctx.queue.to_list
        max_queue := ctx.cfg.queue.max_queue
        total := ctx.queue.to_list.length
        is_full := ctx.cfg.queue.max_queue ≤ ctx.queue.to_list.length
        paused := ctx.runtime.queue_paused
        pause_reason := ctx.runtime.queue_pause_reason
        pause_message := ctx.cfg.queue.pause_message
        auto_pause_time := ctx.runtime.queue_auto_pause_time } }

/-- Replace the two secrets of a context, leaving every other field alone. -/
def setSecrets (ctx : AppContext) (sd sec : String) : AppContext :=
  { ctx with
    cfg :=
      { ctx.cfg with
        bilibili :=
          { ctx.cfg.bilibili with
            open_live := { ctx.cfg.bilibili.open_live with access_secret := sec }
            web := { ctx.cfg.bilibili.web with sessdata := sd } } } }

/-- C9: the snapshot renders each secret only as the fixed mask (when the secret
is non-empty) or as the empty string (when it is empty), so it never contains
the secret itself; consequently any two states that differ only in the values
of their non-empty secrets produce identical snapshots. -/
theorem claim_C9_secret_masking (ctx : AppContext) (sd1 sec1 sd2 sec2 : String)
    (h1 : sd1 ≠ "") (h2 : sd2 ≠ "") (h3 : sec1 ≠ "") (h4 : sec2 ≠ "") :
    ((state_payload ctx).config.bilibili.web.sessdata = secretMask ∨
      (state_payload ctx).config.bilibili.web.sessdata = "") ∧
    ((state_payload ctx).config.bilibili.open_live.access_secret = secretMask ∨
      (state_payload ctx).config.bilibili.open_live.access_secret = "") ∧
    state_payload (setSecrets ctx sd1 sec1) = state_payload (setSecrets ctx sd2 sec2) := by
  refine ⟨?_, ?_, ?_⟩
  · by_cases hsd : ctx.cfg.bilibili.web.sessdata = ""
    · right; simp [state_payload, hsd]
    · left; simp [state_payload, hsd]
  · by_cases hsec : ctx.cfg.bilibili.open_live.access_secret = ""
    · right; simp [state_payload, hsec]
    · left; simp [state_payload, hsec]
  · simp [state_payload, setSecrets, AppContext.overlay_url, h1, h2, h3, h4]

theorem claim_C9_witness :
    state_payload (setSecrets ctxRun "sess1" "sec1") =
      state_payload (setSecrets ctxRun "sess2" "sec2") :=
  (claim_C9_secret_masking ctxRun "sess1" "sec1" "sess2" "sec2"
    (by decide) (by decide) (by decide) (by decide)).2.2

end DanmuQueue
